import Mathlib

/-!
Verification of the per-client rate limiter of the Saathi legal-assistant
backend (`app_production.py` / `app_gemini.py`), shallowly embedded in Lean.

Timestamps (`datetime.now()`) are modelled as rationals; the per-client map
`rate_limit_store = defaultdict(deque)` is modelled as an association list so
that the key-inserting behaviour of `defaultdict.__getitem__` is visible; the
in-place deque mutation of `is_rate_limited` becomes explicit store passing.
-/

namespace Saathi

/-- RATE_LIMIT_REQUESTS = 3 (maximum requests per window). -/
def RATE_LIMIT_REQUESTS : Nat := 3

/-- RATE_LIMIT_WINDOW = 60 seconds. -/
def RATE_LIMIT_WINDOW : ℚ := 60

/-- The `rate_limit_store` map: association list from client id to its
timestamp sequence (deque, oldest first). -/
abbrev Store := List (String × List ℚ)

/-- Lookup with the defaultdict default: a missing key reads as the empty
sequence. -/
def lookupD : Store → String → List ℚ
  | [], _ => []
  | p :: rest, c => if p.1 = c then p.2 else lookupD rest c

/-- Whether the key is present in the store. -/
def hasKey : Store → String → Bool
  | [], _ => false
  | p :: rest, c => if p.1 = c then true else hasKey rest c

/-- Overwrite the value stored under a key (no-op on absent keys). -/
def setVal : Store → String → List ℚ → Store
  | [], _, _ => []
  | p :: rest, c, v => if p.1 = c then (c, v) :: setVal rest c v else p :: setVal rest c v

/-- The key-inserting read of `defaultdict.__getitem__`: an absent key is
materialised with an empty sequence. -/
def touch (s : Store) (c : String) : Store :=
  if hasKey s c then s else s ++ [(c, [])]

/-- The purge loop of `is_rate_limited`:
`while client_requests and client_requests[0] < cutoff_time: popleft()`,
with `cutoff_time = now - RATE_LIMIT_WINDOW`. -/
def purge (now : ℚ) (l : List ℚ) : List ℚ :=
  l.dropWhile (fun t => decide (t < now - RATE_LIMIT_WINDOW))

/-- Python `int()` applied to a rational: truncation toward zero. -/
def pyInt (q : ℚ) : ℤ :=
  if q < 0 then -⌊-q⌋ else ⌊q⌋

/-- `is_rate_limited(client_id)` from `app_production.py` (identical in
`app_gemini.py`): purge the window, reject without recording when the purged
window already holds `RATE_LIMIT_REQUESTS` timestamps, otherwise append `now`.
Returns `((limited, count), store)`; `limited = true` means not admitted. -/
def is_rate_limited (client_id : String) (now : ℚ) (s : Store) : (Bool × Nat) × Store :=
  let s1 := touch s client_id
  let client_requests := purge now (lookupD s1 client_id)
  if RATE_LIMIT_REQUESTS ≤ client_requests.length then
    ((true, client_requests.length), setVal s1 client_id client_requests)
  else
    ((false, (client_requests ++ [now]).length), setVal s1 client_id (client_requests ++ [now]))

/-- `get_rate_limit_reset_time(client_id)`: 0 on an empty sequence, else
`int((oldest + RATE_LIMIT_WINDOW - now).total_seconds())` when that reset time
is still in the future, else 0.  The `rate_limit_store[client_id]` read is the
key-inserting defaultdict read, hence the returned store. -/
def get_rate_limit_reset_time (client_id : String) (now : ℚ) (s : Store) : ℤ × Store :=
  let s1 := touch s client_id
  match lookupD s1 client_id with
  | [] => (0, s1)
  | oldest :: _ =>
    if now < oldest + RATE_LIMIT_WINDOW then (pyInt (oldest + RATE_LIMIT_WINDOW - now), s1)
    else (0, s1)

/-- The timestamps kept by the claimed purge: every timestamp strictly older
than `now - RATE_LIMIT_WINDOW` is dropped, all others kept. -/
def kept (now : ℚ) (l : List ℚ) : List ℚ :=
  l.filter (fun t => decide (now - RATE_LIMIT_WINDOW ≤ t))

/-- `k` calls of `is_rate_limited` for one client at one instant, returning
(number of admitted calls, number of rejected calls, final store). -/
def runSame (c : String) (now : ℚ) : Nat → Store → Nat × Nat × Store
  | 0, s => (0, 0, s)
  | k + 1, s =>
    let r := is_rate_limited c now s
    let rest := runSame c now k r.2
    if r.1.1 then (rest.1, rest.2.1 + 1, rest.2.2) else (rest.1 + 1, rest.2.1, rest.2.2)

/-- Run a sequence of admission checks, each given as (client, time). -/
def runChecks (reqs : List (String × ℚ)) (s : Store) : Store :=
  reqs.foldl (fun st r => (is_rate_limited r.1 r.2 st).2) s

/-- One limiter operation: an admission check or a reset-time query. -/
inductive LimOp where
  | check (now : ℚ)
  | reset (now : ℚ)

/-- Apply one limiter operation for a given client to the store. -/
def applyOp (c : String) (s : Store) : LimOp → Store
  | .check now => (is_rate_limited c now s).2
  | .reset now => (get_rate_limit_reset_time c now s).2

/-- Run a sequence of limiter operations, all for the same client. -/
def runOps (c : String) (ops : List LimOp) (s : Store) : Store :=
  ops.foldl (applyOp c) s

/-! ### Two-phase decomposition of the admission check (for the race model)

In the Python source the purge-and-test of `is_rate_limited` and the final
`client_requests.append(now)` are distinct interpreter steps on shared state,
with no lock between them; under threads another request's steps can run in
between.  `readPhase` is everything up to and including the length test
(returning `admit?`), `appendPhase` is the conditional append. -/

/-- Purge the window and decide admission (true = admit): the first half of
`is_rate_limited`, up to the `len(client_requests) >= RATE_LIMIT_REQUESTS`
test. -/
def readPhase (now : ℚ) (w : List ℚ) : Bool × List ℚ :=
  let w' := purge now w
  if RATE_LIMIT_REQUESTS ≤ w'.length then (false, w') else (true, w')

/-- Record the request if it was admitted: the second half of
`is_rate_limited` (`client_requests.append(now)`). -/
def appendPhase (now : ℚ) (adm : Bool) (w : List ℚ) : List ℚ :=
  if adm then w ++ [now] else w

/-- Four simultaneous checks for one brand-new client at `t = 0`, under the
interleaving in which all four read phases run before any append phase —
a schedule the unlocked source permits.  Returns the four admission decisions
and the final window. -/
def raceRun : List Bool × List ℚ :=
  let r1 := readPhase 0 []
  let r2 := readPhase 0 r1.2
  let r3 := readPhase 0 r2.2
  let r4 := readPhase 0 r3.2
  let w1 := appendPhase 0 r1.1 r4.2
  let w2 := appendPhase 0 r2.1 w1
  let w3 := appendPhase 0 r3.1 w2
  let w4 := appendPhase 0 r4.1 w3
  ([r1.1, r2.1, r3.1, r4.1], w4)

/-! ### Client identity resolver (`get_client_identifier`) -/

/-- An incoming request, reduced to the fields `get_client_identifier` reads:
`request.headers.get('X-Forwarded-For')`, `request.headers.get('X-Real-IP')`
(`none` = header absent) and `request.remote_addr` (`none` = no peer address). -/
structure Request where
  xForwardedFor : Option String
  xRealIP : Option String
  remoteAddr : Option String

/-- Python truthiness of a string: `bool(s)` is `False` exactly on `""`. -/
def strTruthy (s : String) : Bool := !(s == "")

/-- Python truthiness of `headers.get(...)`: `None` and `""` are falsy. -/
def optTruthy : Option String → Bool
  | none => false
  | some s => strTruthy s

/-- Python `.strip()` on a list of characters: drop whitespace from both ends. -/
def pyStripChars (l : List Char) : List Char :=
  ((l.dropWhile Char.isWhitespace).reverse.dropWhile Char.isWhitespace).reverse

/-- Python `s.split(',')[0].strip()`: the characters before the first comma,
stripped of surrounding whitespace. -/
def pyFirstCommaToken (s : String) : String :=
  String.mk (pyStripChars (s.data.takeWhile (fun ch => !(ch == ','))))

/-- `get_client_identifier(request)` from `app_production.py` (identical in
`app_gemini.py`).  Each header test is Python truthiness (`if forwarded_for:`),
and the final fallback is `request.remote_addr or 'unknown'`. -/
def get_client_identifier (req : Request) : String :=
  if optTruthy req.xForwardedFor then pyFirstCommaToken (req.xForwardedFor.getD "")
  else if optTruthy req.xRealIP then req.xRealIP.getD ""
  else if optTruthy req.remoteAddr then req.remoteAddr.getD ""
  else "unknown"

/-- The resolver as worded by the claim: priority on header *presence* alone
("when that header is present"), not Python truthiness. -/
def claimedClientIdentifier (req : Request) : String :=
  match req.xForwardedFor with
  | some ff => pyFirstCommaToken ff
  | none =>
    match req.xRealIP with
    | some rip => rip
    | none =>
      match req.remoteAddr with
      | some a => a
      | none => "unknown"

/-- Fallback of the amended resolver: the peer address when present and
non-empty, else the literal `"unknown"`. -/
def fromRemote : Option String → String
  | none => "unknown"
  | some a => if a = "" then "unknown" else a

/-- Second level of the amended resolver: the real-IP header verbatim when
present and non-empty, else the peer-address fallback. -/
def fromRealIP : Option String → Option String → String
  | none, ra => fromRemote ra
  | some rip, ra => if rip = "" then fromRemote ra else rip

/-- The amended resolver: priority on the headers being present *and
non-empty* (Python truthiness), first match winning. -/
def truthyPriorityResolver : Request → String
  | ⟨none, rip, ra⟩ => fromRealIP rip ra
  | ⟨some ff, rip, ra⟩ => if ff = "" then fromRealIP rip ra else pyFirstCommaToken ff

/-! ### The `/chat` gate (from `app_gemini.py`, lines 1085-1103) -/

/-- The `rate_limit` object attached to chat responses.  The 429 body carries
`current_requests`; the success body does not. -/
structure RateLimitInfo where
  limit : Nat
  remaining : Nat
  reset_in : ℤ
  current_requests : Option Nat
deriving DecidableEq

/-- The slice of the chat endpoint's JSON response relevant to rate limiting,
plus whether the downstream Gemini call was invoked. -/
structure ChatResponse where
  status : Nat
  error : Option String
  rate_limit : Option RateLimitInfo
  llmCalled : Bool
deriving DecidableEq

/-- The `chat()` handler of `app_gemini.py` around its rate-limit gate.
`apiConfigured` is `is_api_configured()`, `msgValid` abstracts the JSON/body
validation of the admitted branch, `geminiOk` abstracts whether
`call_gemini_api` returned a reply.  The downstream call happens only in the
branches with `llmCalled := true`. -/
def chat (apiConfigured msgValid geminiOk : Bool) (req : Request) (now : ℚ)
    (s : Store) : ChatResponse × Store :=
  if apiConfigured = false then
    ({ status := 500, error := some "API_NOT_CONFIGURED", rate_limit := none,
       llmCalled := false }, s)
  else
    let client_id := get_client_identifier req
    let r := is_rate_limited client_id now s
    if r.1.1 then
      let rt := get_rate_limit_reset_time client_id now r.2
      ({ status := 429, error := some "RATE_LIMIT_EXCEEDED",
         rate_limit := some { limit := RATE_LIMIT_REQUESTS, remaining := 0,
                              reset_in := rt.1, current_requests := some r.1.2 },
         llmCalled := false }, rt.2)
    else if msgValid = false then
      ({ status := 400, error := some "NO_MESSAGE", rate_limit := none,
         llmCalled := false }, r.2)
    else if geminiOk then
      ({ status := 200, error := none,
         rate_limit := some { limit := RATE_LIMIT_REQUESTS,
                              remaining := RATE_LIMIT_REQUESTS - r.1.2,
                              reset_in := 60, current_requests := none },
         llmCalled := true }, r.2)
    else
      ({ status := 500, error := some "GEMINI_API_ERROR", rate_limit := none,
         llmCalled := true }, r.2)

/-! ### The end-to-end scenario of §8 (claim C4): client "A" at t = 0,1,2,3,61 -/

/-- Result of request i of the scenario: `((limited, count), store)`. -/
def c4r1 : (Bool × Nat) × Store := is_rate_limited "A" 0 []

def c4r2 : (Bool × Nat) × Store := is_rate_limited "A" 1 c4r1.2

def c4r3 : (Bool × Nat) × Store := is_rate_limited "A" 2 c4r2.2

def c4r4 : (Bool × Nat) × Store := is_rate_limited "A" 3 c4r3.2

/-- `reset_in` reported with the fourth (rejected) request, computed — as in
the handler — on the store the fourth check left behind. -/
def c4reset : ℤ × Store := get_rate_limit_reset_time "A" 3 c4r4.2

def c4r5 : (Bool × Nat) × Store := is_rate_limited "A" 61 c4reset.2

/-! ### Basic store lemmas -/

theorem bool_false_of_not_true {b : Bool} (h : ¬ b = true) : b = false := by
  cases b
  · rfl
  · exact absurd rfl h

theorem lookupD_of_hasKey_eq_false {s : Store} {c : String} (h : hasKey s c = false) :
    lookupD s c = [] := by
  induction s with
  | nil => rfl
  | cons p rest ih =>
    simp only [hasKey] at h
    simp only [lookupD]
    split at h
    · exact absurd h (by simp)
    · rw [if_neg (by assumption)]
      exact ih h

theorem lookupD_append_single (s : Store) (c : String) (v : List ℚ) (c' : String) :
    lookupD (s ++ [(c, v)]) c' = if hasKey s c' then lookupD s c' else if c = c' then v else [] := by
  induction s with
  | nil => simp [lookupD, hasKey]
  | cons p rest ih =>
    by_cases hp : p.1 = c'
    · simp [lookupD, hasKey, hp]
    · simp only [List.cons_append, lookupD, hasKey, if_neg hp]
      exact ih

theorem lookupD_touch_self (s : Store) (c : String) :
    lookupD (touch s c) c = lookupD s c := by
  unfold touch
  split
  · rfl
  · rename_i h
    rw [lookupD_append_single]
    rw [if_neg (by simp_all), if_pos rfl,
      lookupD_of_hasKey_eq_false (bool_false_of_not_true h)]

theorem lookupD_touch_ne (s : Store) {c c' : String} (h : c ≠ c') :
    lookupD (touch s c) c' = lookupD s c' := by
  unfold touch
  split
  · rfl
  · rw [lookupD_append_single]
    by_cases hk : hasKey s c' = true
    · rw [if_pos hk]
    · rw [if_neg hk, if_neg h, lookupD_of_hasKey_eq_false (bool_false_of_not_true hk)]

theorem hasKey_append_single (s : Store) (c : String) (v : List ℚ) (c' : String) :
    hasKey (s ++ [(c, v)]) c' = (hasKey s c' || decide (c = c')) := by
  induction s with
  | nil => simp [hasKey]
  | cons p rest ih =>
    simp only [List.cons_append, hasKey]
    split
    · simp
    · exact ih

theorem hasKey_touch_self (s : Store) (c : String) : hasKey (touch s c) c = true := by
  unfold touch
  split
  · assumption
  · rw [hasKey_append_single]
    simp

theorem hasKey_touch_mono {s : Store} {c' : String} (c : String) (h : hasKey s c' = true) :
    hasKey (touch s c) c' = true := by
  unfold touch
  split
  · exact h
  · rw [hasKey_append_single, h, Bool.true_or]

theorem lookupD_setVal_self {s : Store} {c : String} (v : List ℚ) (h : hasKey s c = true) :
    lookupD (setVal s c v) c = v := by
  induction s with
  | nil => simp [hasKey] at h
  | cons p rest ih =>
    simp only [hasKey] at h
    simp only [setVal]
    split
    · simp [lookupD]
    · rename_i hp
      rw [if_neg hp] at h
      simp only [lookupD, if_neg hp]
      exact ih h

theorem lookupD_setVal_ne (s : Store) {c c' : String} (v : List ℚ) (h : c ≠ c') :
    lookupD (setVal s c v) c' = lookupD s c' := by
  induction s with
  | nil => rfl
  | cons p rest ih =>
    simp only [setVal]
    split
    · rename_i hp
      simp only [lookupD, if_neg h, if_neg (fun he => h (hp.symm.trans he))]
      exact ih
    · simp only [lookupD]
      split
      · rfl
      · exact ih

theorem hasKey_setVal (s : Store) (c : String) (v : List ℚ) (c' : String) :
    hasKey (setVal s c v) c' = hasKey s c' := by
  induction s with
  | nil => rfl
  | cons p rest ih =>
    simp only [setVal]
    split
    · rename_i hp
      simp only [hasKey, hp]
      split
      · rfl
      · exact ih
    · simp only [hasKey]
      split
      · rfl
      · exact ih

/-! ### Evaluation of the §8 scenario -/

theorem c4r1_eq : c4r1 = ((false, 1), [("A", [0])]) := by
  norm_num [c4r1, is_rate_limited, touch, hasKey, lookupD, purge, setVal,
    RATE_LIMIT_REQUESTS, RATE_LIMIT_WINDOW, List.dropWhile]

theorem c4r2_eq : c4r2 = ((false, 2), [("A", [0, 1])]) := by
  norm_num [c4r2, c4r1_eq, is_rate_limited, touch, hasKey, lookupD, purge, setVal,
    RATE_LIMIT_REQUESTS, RATE_LIMIT_WINDOW, List.dropWhile]

theorem c4r3_eq : c4r3 = ((false, 3), [("A", [0, 1, 2])]) := by
  norm_num [c4r3, c4r2_eq, is_rate_limited, touch, hasKey, lookupD, purge, setVal,
    RATE_LIMIT_REQUESTS, RATE_LIMIT_WINDOW, List.dropWhile]

theorem c4r4_eq : c4r4 = ((true, 3), [("A", [0, 1, 2])]) := by
  norm_num [c4r4, c4r3_eq, is_rate_limited, touch, hasKey, lookupD, purge, setVal,
    RATE_LIMIT_REQUESTS, RATE_LIMIT_WINDOW, List.dropWhile]

theorem c4reset_eq : c4reset = (57, [("A", [0, 1, 2])]) := by
  norm_num [c4reset, c4r4_eq, get_rate_limit_reset_time, touch, hasKey, lookupD, pyInt,
    RATE_LIMIT_WINDOW]

theorem c4r5_eq : c4r5 = ((false, 3), [("A", [1, 2, 61])]) := by
  norm_num [c4r5, c4reset_eq, is_rate_limited, touch, hasKey, lookupD, purge, setVal,
    RATE_LIMIT_REQUESTS, RATE_LIMIT_WINDOW, List.dropWhile]

/-! ### Purge lemmas -/

theorem dropWhile_idem {α : Type} (p : α → Bool) (l : List α) :
    (l.dropWhile p).dropWhile p = l.dropWhile p := by
  induction l with
  | nil => rfl
  | cons a t ih =>
    by_cases h : p a = true
    · simp only [List.dropWhile_cons, h, if_true]
      exact ih
    · rw [List.dropWhile_cons, if_neg h, List.dropWhile_cons, if_neg h]

theorem purge_idem (now : ℚ) (l : List ℚ) : purge now (purge now l) = purge now l :=
  dropWhile_idem _ l

theorem purge_length_le (now : ℚ) (l : List ℚ) : (purge now l).length ≤ l.length := by
  induction l with
  | nil => exact Nat.le_refl _
  | cons a t ih =>
    rw [purge, List.dropWhile_cons]
    split
    · exact Nat.le_succ_of_le ih
    · exact Nat.le_refl _

/-- On a non-decreasing window the prefix trim of the source equals the
filter described by the spec: exactly the timestamps strictly older than
`now - RATE_LIMIT_WINDOW` are removed. -/
theorem purge_eq_kept (now : ℚ) {l : List ℚ} (h : List.Sorted (· ≤ ·) l) :
    purge now l = kept now l := by
  induction l with
  | nil => rfl
  | cons a t ih =>
    rw [List.sorted_cons] at h
    by_cases ha : a < now - RATE_LIMIT_WINDOW
    · rw [purge, List.dropWhile_cons, if_pos (by simpa using ha), kept, List.filter_cons,
        if_neg (by simpa using not_le.mpr ha)]
      exact ih h.2
    · rw [purge, List.dropWhile_cons, if_neg (by simpa using ha), kept, List.filter_cons,
        if_pos (by simpa using not_lt.mp ha)]
      congr 1
      exact (List.filter_eq_self.mpr fun b hb => by
        simpa using le_trans (not_lt.mp ha) (h.1 b hb)).symm

/-! ### Claim theorems -/

/-- C1: for every client and call time, `is_rate_limited` first removes from
the client's (time-ordered) window exactly the timestamps strictly older than
`now - RATE_LIMIT_WINDOW`; if at least `RATE_LIMIT_REQUESTS` timestamps remain
it reports rate-limited (not admitted) with that remaining count and stores
the window without `now`; otherwise it appends `now`, reports admitted, and
returns the count after the append. -/
theorem rate_limit_check_matches_spec (c : String) (now : ℚ) (s : Store)
    (h : List.Sorted (· ≤ ·) (lookupD s c)) :
    (RATE_LIMIT_REQUESTS ≤ (kept now (lookupD s c)).length →
      (is_rate_limited c now s).1 = (true, (kept now (lookupD s c)).length) ∧
      lookupD (is_rate_limited c now s).2 c = kept now (lookupD s c)) ∧
    ((kept now (lookupD s c)).length < RATE_LIMIT_REQUESTS →
      (is_rate_limited c now s).1 = (false, (kept now (lookupD s c)).length + 1) ∧
      lookupD (is_rate_limited c now s).2 c = kept now (lookupD s c) ++ [now]) := by
  have hk : purge now (lookupD (touch s c) c) = kept now (lookupD s c) := by
    rw [lookupD_touch_self]
    exact purge_eq_kept now h
  have hkey := hasKey_touch_self s c
  constructor
  · intro hge
    have hstep : is_rate_limited c now s =
        ((true, (kept now (lookupD s c)).length),
         setVal (touch s c) c (kept now (lookupD s c))) := by
      simp only [is_rate_limited, hk]
      rw [if_pos hge]
    rw [hstep]
    exact ⟨rfl, lookupD_setVal_self _ hkey⟩
  · intro hlt
    have hstep : is_rate_limited c now s =
        ((false, (kept now (lookupD s c)).length + 1),
         setVal (touch s c) c (kept now (lookupD s c) ++ [now])) := by
      simp only [is_rate_limited, hk]
      rw [if_neg (by omega), List.length_append]
      rfl
    rw [hstep]
    exact ⟨rfl, lookupD_setVal_self _ hkey⟩

/-- Witness for C1 at a concrete sorted window: client "A" holds
`[0, 10, 20]`, a check at `t = 70` keeps `[10, 20]`, admits, and stores
`[10, 20, 70]`. -/
theorem rate_limit_check_matches_spec_witness :
    List.Sorted (· ≤ ·) (lookupD [("A", [(0:ℚ), 10, 20])] "A") ∧
    (kept 70 (lookupD [("A", [(0:ℚ), 10, 20])] "A")).length < RATE_LIMIT_REQUESTS ∧
    ((is_rate_limited "A" 70 [("A", [(0:ℚ), 10, 20])]).1 =
        (false, (kept 70 (lookupD [("A", [(0:ℚ), 10, 20])] "A")).length + 1) ∧
      lookupD (is_rate_limited "A" 70 [("A", [(0:ℚ), 10, 20])]).2 "A" =
        kept 70 (lookupD [("A", [(0:ℚ), 10, 20])] "A") ++ [70]) :=
  ⟨by norm_num [lookupD, List.sorted_cons],
   by norm_num [lookupD, kept, List.filter, RATE_LIMIT_REQUESTS, RATE_LIMIT_WINDOW],
   (rate_limit_check_matches_spec "A" 70 [("A", [(0:ℚ), 10, 20])]
      (by norm_num [lookupD, List.sorted_cons])).2
    (by norm_num [lookupD, kept, List.filter, RATE_LIMIT_REQUESTS, RATE_LIMIT_WINDOW])⟩

/-- C2: `get_rate_limit_reset_time` returns 0 on an empty stored sequence (in
particular for a brand-new client whose key is absent), and otherwise returns
`oldest + RATE_LIMIT_WINDOW - now` rounded down to an integer when positive,
else 0. -/
theorem reset_time_matches_spec (c : String) (now : ℚ) (s : Store) :
    (lookupD s c = [] → (get_rate_limit_reset_time c now s).1 = 0) ∧
    (∀ oldest rest, lookupD s c = oldest :: rest →
      (get_rate_limit_reset_time c now s).1 =
        if 0 < oldest + RATE_LIMIT_WINDOW - now then ⌊oldest + RATE_LIMIT_WINDOW - now⌋
        else 0) ∧
    (hasKey s c = false → (get_rate_limit_reset_time c now s).1 = 0) := by
  have hl : lookupD (touch s c) c = lookupD s c := lookupD_touch_self s c
  refine ⟨fun he => ?_, fun oldest rest hco => ?_, fun hk => ?_⟩
  · simp only [get_rate_limit_reset_time, hl, he]
  · simp only [get_rate_limit_reset_time, hl, hco]
    by_cases hpos : now < oldest + RATE_LIMIT_WINDOW
    · rw [if_pos hpos, if_pos (by linarith)]
      simp only [pyInt]
      rw [if_neg (by linarith)]
    · rw [if_neg hpos, if_neg (fun hq => hpos (by linarith))]
  · simp only [get_rate_limit_reset_time, hl, lookupD_of_hasKey_eq_false hk]

/-- Witness for C2: client "B" stores `[1]`; queried at `t = 2` the reset time
is the claimed rounded-down positive quantity. -/
theorem reset_time_matches_spec_witness :
    lookupD [("B", [(1:ℚ)])] "B" = (1:ℚ) :: [] ∧
    (get_rate_limit_reset_time "B" 2 [("B", [(1:ℚ)])]).1 =
      (if 0 < (1:ℚ) + RATE_LIMIT_WINDOW - 2 then ⌊(1:ℚ) + RATE_LIMIT_WINDOW - 2⌋ else 0) :=
  ⟨by norm_num [lookupD],
   (reset_time_matches_spec "B" 2 [("B", [(1:ℚ)])]).2.1 1 [] (by norm_num [lookupD])⟩

/-- C3: if the purged window already holds at least `RATE_LIMIT_REQUESTS`
timestamps at time `now`, then `k` immediate calls of `is_rate_limited` admit
nothing, and (for `k ≥ 1`) leave the stored sequence equal to the purged
window — rejected requests never append. -/
theorem rejection_idempotent (c : String) (now : ℚ) (s : Store) (k : Nat)
    (h : RATE_LIMIT_REQUESTS ≤ (purge now (lookupD s c)).length) :
    (runSame c now k s).1 = 0 ∧
    (1 ≤ k → lookupD (runSame c now k s).2.2 c = purge now (lookupD s c)) := by
  induction k generalizing s with
  | zero => exact ⟨rfl, by omega⟩
  | succ k ih =>
    have hstep : is_rate_limited c now s =
        ((true, (purge now (lookupD s c)).length),
         setVal (touch s c) c (purge now (lookupD s c))) := by
      simp only [is_rate_limited, lookupD_touch_self]
      rw [if_pos h]
    have hlook : lookupD (setVal (touch s c) c (purge now (lookupD s c))) c =
        purge now (lookupD s c) :=
      lookupD_setVal_self _ (hasKey_touch_self s c)
    have hnext : RATE_LIMIT_REQUESTS ≤
        (purge now (lookupD (setVal (touch s c) c (purge now (lookupD s c))) c)).length := by
      rw [hlook, purge_idem]
      exact h
    have ihh := ih _ hnext
    have hrun : runSame c now (k + 1) s =
        ((runSame c now k (setVal (touch s c) c (purge now (lookupD s c)))).1,
         (runSame c now k (setVal (touch s c) c (purge now (lookupD s c)))).2.1 + 1,
         (runSame c now k (setVal (touch s c) c (purge now (lookupD s c)))).2.2) := by
      simp [runSame, hstep]
    constructor
    · rw [hrun]
      exact ihh.1
    · intro _
      rw [hrun]
      dsimp only
      rcases Nat.eq_zero_or_pos k with hk | hk
      · subst hk
        simpa [runSame] using hlook
      · rw [ihh.2 hk, hlook, purge_idem]

/-- Witness for C3: client "A" at the limit with `[40, 50, 60]`, two
back-to-back checks at `t = 100` admit nothing and leave the window intact. -/
theorem rejection_idempotent_witness :
    RATE_LIMIT_REQUESTS ≤ (purge 100 (lookupD [("A", [(40:ℚ), 50, 60])] "A")).length ∧
    ((runSame "A" 100 2 [("A", [(40:ℚ), 50, 60])]).1 = 0 ∧
     (1 ≤ 2 → lookupD (runSame "A" 100 2 [("A", [(40:ℚ), 50, 60])]).2.2 "A" =
       purge 100 (lookupD [("A", [(40:ℚ), 50, 60])] "A"))) :=
  ⟨by norm_num [lookupD, purge, List.dropWhile, RATE_LIMIT_REQUESTS, RATE_LIMIT_WINDOW],
   rejection_idempotent "A" 100 [("A", [(40:ℚ), 50, 60])] 2
     (by norm_num [lookupD, purge, List.dropWhile, RATE_LIMIT_REQUESTS, RATE_LIMIT_WINDOW])⟩

/-- C4 counterexample: in the §8 scenario the fifth request (client "A" at
`t = 61` after requests at `t = 0, 1, 2, 3`) is admitted but with
`current_requests = 3`, not 1: the purge drops only timestamps strictly older
than `61 - 60 = 1`, so `t = 1` and `t = 2` are still in the window. -/
theorem c4_fifth_request_count_is_not_one :
    c4r5.1 = (false, 3) ∧ ¬(c4r5.1 = ((false, 1) : Bool × Nat)) := by
  rw [c4r5_eq]
  exact ⟨rfl, by decide⟩

/-- C4 amended: requests of client "A" at `t = 0, 1, 2, 3` yield admitted
(count 1), admitted (count 2), admitted (count 3), rejected (count 3) with
`reset_in = 57`; the fifth request at `t = 61` is admitted with
`current_requests = 3` (only the `t = 0` timestamp has aged out). -/
theorem c4_scenario_amended :
    c4r1.1 = (false, 1) ∧ c4r2.1 = (false, 2) ∧ c4r3.1 = (false, 3) ∧
    c4r4.1 = (true, 3) ∧ c4reset.1 = 57 ∧ c4r5.1 = (false, 3) := by
  rw [c4r1_eq, c4r2_eq, c4r3_eq, c4r4_eq, c4reset_eq, c4r5_eq]
  exact ⟨rfl, rfl, rfl, rfl, rfl, rfl⟩

/-- C5: when the admission check reports rate-limited, the chat handler
returns HTTP 429 with `error = "RATE_LIMIT_EXCEEDED"` and
`rate_limit = {limit, remaining := 0, reset_in, current_requests}`, and the
downstream Gemini call is not invoked in that branch. -/
theorem chat_gate_short_circuits_on_limit (msgValid geminiOk : Bool) (req : Request)
    (now : ℚ) (s : Store)
    (h : (is_rate_limited (get_client_identifier req) now s).1.1 = true) :
    (chat true msgValid geminiOk req now s).1.status = 429 ∧
    (chat true msgValid geminiOk req now s).1.error = some "RATE_LIMIT_EXCEEDED" ∧
    (chat true msgValid geminiOk req now s).1.llmCalled = false ∧
    (chat true msgValid geminiOk req now s).1.rate_limit =
      some { limit := RATE_LIMIT_REQUESTS, remaining := 0,
             reset_in := (get_rate_limit_reset_time (get_client_identifier req) now
               (is_rate_limited (get_client_identifier req) now s).2).1,
             current_requests :=
               some (is_rate_limited (get_client_identifier req) now s).1.2 } := by
  have hchat : chat true msgValid geminiOk req now s =
      ({ status := 429, error := some "RATE_LIMIT_EXCEEDED",
         rate_limit := some { limit := RATE_LIMIT_REQUESTS, remaining := 0,
                              reset_in := (get_rate_limit_reset_time
                                (get_client_identifier req) now
                                (is_rate_limited (get_client_identifier req) now s).2).1,
                              current_requests :=
                                some (is_rate_limited
                                  (get_client_identifier req) now s).1.2 },
         llmCalled := false },
       (get_rate_limit_reset_time (get_client_identifier req) now
         (is_rate_limited (get_client_identifier req) now s).2).2) := by
    simp only [chat]
    rw [if_neg (by simp), if_pos h]
  rw [hchat]
  exact ⟨rfl, rfl, rfl, rfl⟩

/-- Witness for C5: client "A" already at the limit (window `[0, 0, 0]`) is
rejected with a 429 response and no downstream call. -/
theorem chat_gate_short_circuits_on_limit_witness :
    (is_rate_limited (get_client_identifier ⟨none, none, some "A"⟩) 0
      [("A", [(0:ℚ), 0, 0])]).1.1 = true ∧
    ((chat true true true ⟨none, none, some "A"⟩ 0 [("A", [(0:ℚ), 0, 0])]).1.status = 429 ∧
     (chat true true true ⟨none, none, some "A"⟩ 0 [("A", [(0:ℚ), 0, 0])]).1.error =
       some "RATE_LIMIT_EXCEEDED" ∧
     (chat true true true ⟨none, none, some "A"⟩ 0 [("A", [(0:ℚ), 0, 0])]).1.llmCalled = false ∧
     (chat true true true ⟨none, none, some "A"⟩ 0 [("A", [(0:ℚ), 0, 0])]).1.rate_limit =
       some { limit := RATE_LIMIT_REQUESTS, remaining := 0,
              reset_in := (get_rate_limit_reset_time
                (get_client_identifier ⟨none, none, some "A"⟩) 0
                (is_rate_limited (get_client_identifier ⟨none, none, some "A"⟩) 0
                  [("A", [(0:ℚ), 0, 0])]).2).1,
              current_requests :=
                some (is_rate_limited (get_client_identifier ⟨none, none, some "A"⟩) 0
                  [("A", [(0:ℚ), 0, 0])]).1.2 }) :=
  ⟨by norm_num [get_client_identifier, optTruthy, strTruthy, is_rate_limited, touch,
      hasKey, lookupD, purge, List.dropWhile, RATE_LIMIT_REQUESTS, RATE_LIMIT_WINDOW],
   chat_gate_short_circuits_on_limit true true ⟨none, none, some "A"⟩ 0
     [("A", [(0:ℚ), 0, 0])]
     (by norm_num [get_client_identifier, optTruthy, strTruthy, is_rate_limited, touch,
       hasKey, lookupD, purge, List.dropWhile, RATE_LIMIT_REQUESTS, RATE_LIMIT_WINDOW])⟩

/-- C6 counterexample: with a present-but-empty `X-Forwarded-For` header the
claimed resolver (priority by presence) returns the empty first token, but the
source tests Python truthiness and falls through to the peer address. -/
theorem resolver_presence_claim_false :
    get_client_identifier ⟨some "", none, some "203.0.113.7"⟩ = "203.0.113.7" ∧
    claimedClientIdentifier ⟨some "", none, some "203.0.113.7"⟩ = "" ∧
    ¬(get_client_identifier ⟨some "", none, some "203.0.113.7"⟩ =
      claimedClientIdentifier ⟨some "", none, some "203.0.113.7"⟩) := by
  refine ⟨?_, ?_, ?_⟩ <;> decide

/-- C6 amended: the resolver applies the priority order with each source
required to be present *and non-empty*: first comma-token of the forwarded-for
header, else the real-IP header verbatim, else the peer address, else
`"unknown"`. -/
theorem resolver_truthy_priority (req : Request) :
    get_client_identifier req = truthyPriorityResolver req := by
  obtain ⟨ff, rip, ra⟩ := req
  have hra : (if optTruthy ra then ra.getD "" else "unknown") = fromRemote ra := by
    cases ra with
    | none => rfl
    | some a => by_cases ha : a = "" <;> simp [optTruthy, strTruthy, fromRemote, ha]
  have hrip : (if optTruthy rip then rip.getD ""
      else if optTruthy ra then ra.getD "" else "unknown") = fromRealIP rip ra := by
    cases rip with
    | none => simpa [optTruthy, fromRealIP] using hra
    | some r =>
      by_cases hr : r = ""
      · rw [if_neg (by simp [optTruthy, strTruthy, hr]), hra]
        simp [fromRealIP, hr]
      · rw [if_pos (by simp [optTruthy, strTruthy, hr])]
        simp [fromRealIP, hr]
  cases ff with
  | none => simpa [get_client_identifier, optTruthy, truthyPriorityResolver] using hrip
  | some f =>
    have hunfold : get_client_identifier ⟨some f, rip, ra⟩ =
        (if optTruthy (some f) then pyFirstCommaToken ((some f).getD "")
         else if optTruthy rip then rip.getD ""
         else if optTruthy ra then ra.getD "" else "unknown") := rfl
    by_cases hf : f = ""
    · rw [hunfold, if_neg (by simp [optTruthy, strTruthy, hf]), hrip]
      simp [truthyPriorityResolver, hf]
    · rw [hunfold, if_pos (by simp [optTruthy, strTruthy, hf])]
      simp [truthyPriorityResolver, hf]

/-- Witness for the amended C6 at a concrete request: a forwarded-for header
with two comma-separated entries resolves to its first entry, trimmed. -/
theorem resolver_truthy_priority_witness :
    get_client_identifier ⟨some " 1.2.3.4 , 5.6.7.8", none, none⟩ =
      truthyPriorityResolver ⟨some " 1.2.3.4 , 5.6.7.8", none, none⟩ ∧
    get_client_identifier ⟨some " 1.2.3.4 , 5.6.7.8", none, none⟩ = "1.2.3.4" :=
  ⟨resolver_truthy_priority ⟨some " 1.2.3.4 , 5.6.7.8", none, none⟩, by decide⟩

/-- C7: the unlocked source violates the at-most-N-admissions guarantee under
interleaving.  First conjunct: `is_rate_limited` is exactly the composition of
`readPhase` (purge + length test) and `appendPhase` (conditional append), so
the race model below runs the very steps of the source.  Remaining conjuncts:
when four simultaneous checks for one brand-new client interleave so that all
four read phases precede the appends — a schedule nothing in the source
prevents — all four are admitted, not `RATE_LIMIT_REQUESTS = 3`. -/
theorem race_admits_more_than_limit :
    (∀ c now s,
      is_rate_limited c now s =
        ((!(readPhase now (lookupD (touch s c) c)).1,
          (appendPhase now (readPhase now (lookupD (touch s c) c)).1
            (readPhase now (lookupD (touch s c) c)).2).length),
         setVal (touch s c) c
           (appendPhase now (readPhase now (lookupD (touch s c) c)).1
             (readPhase now (lookupD (touch s c) c)).2))) ∧
    raceRun.1 = [true, true, true, true] ∧
    raceRun.1.count true = 4 ∧
    ¬(raceRun.1.count true = RATE_LIMIT_REQUESTS) := by
  have hr : raceRun.1 = [true, true, true, true] := by
    norm_num [raceRun, readPhase, appendPhase, purge,
      RATE_LIMIT_REQUESTS, RATE_LIMIT_WINDOW, List.dropWhile]
  refine ⟨fun c now s => ?_, hr, ?_, ?_⟩
  · by_cases hc : RATE_LIMIT_REQUESTS ≤ (purge now (lookupD (touch s c) c)).length
    · simp [is_rate_limited, readPhase, appendPhase, hc]
    · simp [is_rate_limited, readPhase, appendPhase, hc]
  · rw [hr]
    rfl
  · rw [hr]
    decide

/-! ### Frame lemmas: an operation for one client leaves other keys alone -/

theorem lookupD_check_ne {a b : String} (hab : a ≠ b) (now : ℚ) (s : Store) :
    lookupD (is_rate_limited a now s).2 b = lookupD s b := by
  simp only [is_rate_limited]
  split <;> dsimp only <;> rw [lookupD_setVal_ne _ _ hab, lookupD_touch_ne _ hab]

theorem reset_snd (c : String) (now : ℚ) (s : Store) :
    (get_rate_limit_reset_time c now s).2 = touch s c := by
  simp only [get_rate_limit_reset_time]
  cases h : lookupD (touch s c) c with
  | nil => rfl
  | cons o r =>
    dsimp only
    split <;> rfl

theorem lookupD_applyOp_ne {a b : String} (hab : a ≠ b) (s : Store) (op : LimOp) :
    lookupD (applyOp a s op) b = lookupD s b := by
  cases op with
  | check now => exact lookupD_check_ne hab now s
  | reset now =>
    show lookupD (get_rate_limit_reset_time a now s).2 b = lookupD s b
    rw [reset_snd, lookupD_touch_ne _ hab]

/-- The admission decision and count depend only on the client's own stored
sequence. -/
theorem check_fst_congr (b : String) (now : ℚ) {s s' : Store}
    (h : lookupD s b = lookupD s' b) :
    (is_rate_limited b now s).1 = (is_rate_limited b now s').1 := by
  simp only [is_rate_limited, lookupD_touch_self, h]
  split <;> rfl

/-- C8: any sequence of admission checks and reset queries for client `a`
leaves a different client `b`'s stored sequence unchanged, and hence `b`'s
next admission outcome and count unchanged. -/
theorem client_isolation (a b : String) (hab : a ≠ b) (ops : List LimOp) (s : Store)
    (now : ℚ) :
    lookupD (runOps a ops s) b = lookupD s b ∧
    (is_rate_limited b now (runOps a ops s)).1 = (is_rate_limited b now s).1 := by
  have hframe : lookupD (runOps a ops s) b = lookupD s b := by
    induction ops generalizing s with
    | nil => rfl
    | cons op rest ih =>
      show lookupD (runOps a rest (applyOp a s op)) b = lookupD s b
      rw [ih (applyOp a s op), lookupD_applyOp_ne hab]
  exact ⟨hframe, check_fst_congr b now hframe⟩

/-- Witness for C8: a check and a reset query for "A" leave "B"'s window and
"B"'s admission outcome untouched. -/
theorem client_isolation_witness :
    ("A" : String) ≠ "B" ∧
    (lookupD (runOps "A" [.check 5, .reset 6] [("B", [(1:ℚ)])]) "B" =
       lookupD [("B", [(1:ℚ)])] "B" ∧
     (is_rate_limited "B" 7 (runOps "A" [.check 5, .reset 6] [("B", [(1:ℚ)])])).1 =
       (is_rate_limited "B" 7 [("B", [(1:ℚ)])]).1) :=
  ⟨by decide, client_isolation "A" "B" (by decide) [.check 5, .reset 6]
    [("B", [(1:ℚ)])] 7⟩

/-- One admission check preserves the bound: every stored sequence keeps at
most `RATE_LIMIT_REQUESTS` entries, because `now` is appended only when the
post-purge length is strictly below the limit. -/
theorem check_preserves_bound (a : String) (now : ℚ) (s : Store)
    (h : ∀ c, (lookupD s c).length ≤ RATE_LIMIT_REQUESTS) (c : String) :
    (lookupD (is_rate_limited a now s).2 c).length ≤ RATE_LIMIT_REQUESTS := by
  by_cases hc : a = c
  · subst hc
    have hle : (purge now (lookupD (touch s a) a)).length ≤ RATE_LIMIT_REQUESTS := by
      calc (purge now (lookupD (touch s a) a)).length
          ≤ (lookupD (touch s a) a).length := purge_length_le _ _
        _ = (lookupD s a).length := by rw [lookupD_touch_self]
        _ ≤ RATE_LIMIT_REQUESTS := h a
    simp only [is_rate_limited]
    split
    · dsimp only
      rw [lookupD_setVal_self _ (hasKey_touch_self s a)]
      exact hle
    · rename_i hlt
      dsimp only
      rw [lookupD_setVal_self _ (hasKey_touch_self s a), List.length_append]
      simp only [List.length_cons, List.length_nil]
      omega
  · simp only [is_rate_limited]
    split <;> dsimp only <;>
      rw [lookupD_setVal_ne _ _ hc, lookupD_touch_ne _ hc] <;> exact h c

/-- C9: starting from the empty store, after any finite sequence of admission
checks for any clients at any times, every client's stored sequence holds at
most `RATE_LIMIT_REQUESTS = 3` timestamps. -/
theorem store_entries_bounded (reqs : List (String × ℚ)) (c : String) :
    (lookupD (runChecks reqs []) c).length ≤ RATE_LIMIT_REQUESTS := by
  suffices h : ∀ s : Store, (∀ c', (lookupD s c').length ≤ RATE_LIMIT_REQUESTS) →
      ∀ c', (lookupD (runChecks reqs s) c').length ≤ RATE_LIMIT_REQUESTS by
    exact h [] (fun c' => by simp [lookupD, RATE_LIMIT_REQUESTS]) c
  induction reqs with
  | nil => exact fun s hs c' => hs c'
  | cons r rest ih =>
    intro s hs c'
    exact ih ((is_rate_limited r.1 r.2 s).2) (check_preserves_bound r.1 r.2 s hs) c'

/-- Witness for C9 at a concrete run: after checks for "A" at t = 0, 1 the
stored window of "A" is within the bound. -/
theorem store_entries_bounded_witness :
    (lookupD (runChecks [("A", (0:ℚ)), ("A", 1)] []) "A").length ≤ RATE_LIMIT_REQUESTS :=
  store_entries_bounded [("A", (0:ℚ)), ("A", 1)] "A"

/-- C10: querying the reset time for a client absent from the store returns 0
but, through the defaultdict read, inserts the key with an empty sequence; no
existing key is ever removed by the query. -/
theorem reset_query_inserts_key (c : String) (now : ℚ) (s : Store)
    (h : hasKey s c = false) :
    (get_rate_limit_reset_time c now s).1 = 0 ∧
    hasKey (get_rate_limit_reset_time c now s).2 c = true ∧
    lookupD (get_rate_limit_reset_time c now s).2 c = [] ∧
    (∀ c', hasKey s c' = true → hasKey (get_rate_limit_reset_time c now s).2 c' = true) := by
  have he : lookupD (touch s c) c = [] := by
    rw [lookupD_touch_self]
    exact lookupD_of_hasKey_eq_false h
  have h2 : get_rate_limit_reset_time c now s = (0, touch s c) := by
    simp only [get_rate_limit_reset_time, he]
  rw [h2]
  exact ⟨rfl, hasKey_touch_self s c, he, fun c' hc' => hasKey_touch_mono c hc'⟩

/-- Witness for C10: the very first reset query of client "X" on the empty
store returns 0 and creates the key. -/
theorem reset_query_inserts_key_witness :
    hasKey [] "X" = false ∧
    ((get_rate_limit_reset_time "X" 0 []).1 = 0 ∧
     hasKey (get_rate_limit_reset_time "X" 0 []).2 "X" = true ∧
     lookupD (get_rate_limit_reset_time "X" 0 []).2 "X" = [] ∧
     (∀ c', hasKey [] c' = true → hasKey (get_rate_limit_reset_time "X" 0 []).2 c' = true)) :=
  ⟨rfl, reset_query_inserts_key "X" 0 [] rfl⟩

end Saathi
